import Mathlib

/-!
Verification model of the XML schema-inference and data-extraction core of the
`duckdb_webbed` extension (file `src/xml_schema_inference.cpp` together with the
declarations in `src/include/xml_schema_inference.hpp`).

The development is a shallow embedding:

* the libxml2 document tree is modelled by `XMLNode` (element nodes carry the
  libxml node name, the ordered attribute list and the ordered child list;
  text nodes carry their text);
* DuckDB `LogicalType` values reachable from this core are modelled by `LType`
  (the `XML` type created by `XMLTypes::XMLType()` is a `VARCHAR` carrying the
  alias string "XML"; the alias makes it distinct from plain `VARCHAR`, so it is
  modelled as the separate constructor `LType.xml`);
* DuckDB `Value` objects reachable from this core are modelled by `XValue`;
* C++ functions become Lean functions of the same name (up to capitalisation
  and the naming constraints of this file); machine integers are modelled by
  `Int`/`Nat` — no arithmetic in the translated code can overflow `int`
  (depths are capped at 20, counts are list lengths);
* C++ exceptions thrown by parsing functions are modelled by `Option`
  (`none` = the function threw), and every `try { ... } catch (...)` block
  becomes a `match` on that `Option`.

Document parsing itself (`XMLDocRAII`, `xmlParse...`) is an external
collaborator of the core; the embedding therefore takes the already-parsed
root element as input.  XPath evaluation (`xmlXPathEvalExpression`) is also
external; the embedding reproduces the two rewritten forms the code itself
constructs for plain tag names, and returns no matches for general XPath
expressions, which are outside the embedded fragment (theorems quantifying
over options either restrict the locator fields or do not depend on them).
-/

mutual
/-- The DuckDB `LogicalType`s reachable from the schema-inference core.
`xml` is `XMLTypes::XMLType()`, i.e. VARCHAR carrying the alias "XML";
`sqlnull` is `LogicalTypeId::SQLNULL`, the type of the default `Value()`.
Struct fields are kept in a purpose-built `FieldList` (name/type pairs in
order) so that all recursion over types is structural. -/
inductive LType where
  | sqlnull
  | varchar
  | boolean
  | integer
  | bigint
  | double
  | date
  | time
  | timestamp
  | xml
  | list (elem : LType)
  | strct (fields : FieldList)
deriving DecidableEq
inductive FieldList where
  | nil
  | cons (name : String) (t : LType) (rest : FieldList)
deriving DecidableEq
end

/-- Appending field lists (used when a struct gathers attribute fields first
and child fields second, mirroring two successive `push_back` loops). -/
def FieldList.append : FieldList → FieldList → FieldList
  | .nil, ys => ys
  | .cons n t rest, ys => .cons n t (rest.append ys)

/-- True iff the top constructor is `LIST` (`type.id() == LogicalTypeId::LIST`). -/
def LType.isList : LType → Bool
  | .list _ => true
  | _ => false

mutual
/-- The parsed document tree handed to the core: a simplification of libxml2
`xmlNode`.  `elem tag attrs children` models an `XML_ELEMENT_NODE` whose
`name` is `tag` (for elements in a declared namespace libxml stores the local
name; an undeclared prefix stays inside the name string, which is what
`StripNamespacePrefix` is for), whose `properties` list is `attrs` in
declaration order, and whose `children` list is `children` in document order.
`text s` models a text node.  Other libxml node kinds (comments, PIs, CDATA)
are skipped by every loop of the embedded core exactly like text nodes, so
they are not modelled separately.  The child list is a purpose-built
`NodeList` so that recursion over the tree is structural. -/
inductive XMLNode where
  | elem (tag : String) (attrs : List (String × String)) (children : NodeList)
  | text (s : String)
deriving DecidableEq
inductive NodeList where
  | nil
  | cons (n : XMLNode) (rest : NodeList)
deriving DecidableEq
end

/-- Build a `NodeList` from an ordinary list (used to write documents). -/
def NodeList.ofList : List XMLNode → NodeList
  | [] => .nil
  | n :: rest => .cons n (NodeList.ofList rest)

/-- The element nodes of a child list, in document order
(every `for (child = x->children; ...) if (child->type == XML_ELEMENT_NODE)`
loop of the source walks exactly this list). -/
def NodeList.elems : NodeList → List XMLNode
  | .nil => []
  | .cons n rest =>
    match n with
    | .elem tag attrs cs => XMLNode.elem tag attrs cs :: rest.elems
    | .text _ => rest.elems

/-- The element children of a node, in document order. -/
def XMLNode.elementChildren : XMLNode → List XMLNode
  | .elem _ _ cs => cs.elems
  | .text _ => []

/-- The node's name (`node->name`); text nodes never have theirs read. -/
def XMLNode.tag : XMLNode → String
  | .elem t _ _ => t
  | .text _ => ""

/-- The node's attribute list (`node->properties`), in declaration order. -/
def XMLNode.attrList : XMLNode → List (String × String)
  | .elem _ attrs _ => attrs
  | .text _ => []

/-- `node->properties != nullptr`. -/
def XMLNode.hasAttrs (n : XMLNode) : Bool := n.attrList ≠ []

/-- Whether the node has at least one element child (the `is_complex`
child-scan of `InferColumnType`). -/
def XMLNode.hasElemChild (n : XMLNode) : Bool := n.elementChildren ≠ []

/-- `xmlGetProp(node, name)`: the value of the first attribute with the given
name, if any (namespace/DTD-default lookup of libxml is not modelled). -/
def attrLookup (n : XMLNode) (name : String) : Option String :=
  (n.attrList.find? (fun a => a.1 = name)).map (fun a => a.2)

mutual
/-- `xmlNodeGetContent(node)`: the concatenation of all text-node descendants
in document order (for a text node, its own text). -/
def nodeContent : XMLNode → String
  | .text s => s
  | .elem _ _ cs => nodeListContent cs
def nodeListContent : NodeList → String
  | .nil => ""
  | .cons n rest => nodeContent n ++ nodeListContent rest
end

mutual
/-- All element nodes of the subtree (the node itself included) whose
local name — the name with any `prefix:` part removed — equals `t`, in
document order.  This is the embedded meaning of the XPath
`//*[local-name()='t']` that `IdentifyRecordElements` builds for plain tag
names. -/
def descendantsLocalName (t : String) : XMLNode → List XMLNode
  | .text _ => []
  | .elem tg attrs cs =>
    (if stripNamespacePfx tg = t then [XMLNode.elem tg attrs cs] else []) ++
      descendantsLocalNameL t cs
def descendantsLocalNameL (t : String) : NodeList → List XMLNode
  | .nil => []
  | .cons n rest => descendantsLocalName t n ++ descendantsLocalNameL t rest
/-- `XMLSchemaInference::StripNamespacePrefix` (the `Pfx` spelling is forced
by this file's naming constraints): drop everything up to and including the
first colon, if there is one. -/
def stripNamespacePfx (s : String) : String :=
  if s.toList.contains ':' then
    String.mk ((s.toList.dropWhile (fun c => c ≠ ':')).drop 1)
  else s
end

mutual
/-- All element nodes of the subtree (the node itself included) whose name
equals `t` exactly, in document order: the embedded meaning of the XPath
`//t` that the `root_element` branch builds. -/
def descendantsNamed (t : String) : XMLNode → List XMLNode
  | .text _ => []
  | .elem tg attrs cs =>
    (if tg = t then [XMLNode.elem tg attrs cs] else []) ++ descendantsNamedL t cs
def descendantsNamedL (t : String) : NodeList → List XMLNode
  | .nil => []
  | .cons n rest => descendantsNamed t n ++ descendantsNamedL t rest
end

/-! ## String utilities of the core -/

/-- The whitespace class of `std::isspace` in the default locale (also the
class of the ECMAScript regex `\s` used by `CleanTextContent`). -/
def isCppSpace (c : Char) : Bool :=
  c = ' ' ∨ c = '\t' ∨ c = '\n' ∨ c = '\x0b' ∨ c = '\x0c' ∨ c = '\r'

/-- ASCII lower-casing of one character (`::tolower` in the default locale). -/
def lowerChar (c : Char) : Char :=
  if 'A' ≤ c ∧ c ≤ 'Z' then Char.ofNat (c.toNat + 32) else c

/-- `StringUtil::Lower` / the `std::transform(..., ::tolower)` of
`ConvertToValue`'s boolean case. -/
def lowerStr (s : String) : String := String.mk (s.toList.map lowerChar)

/-- Collapse every run of whitespace to a single space, scanning left to
right (the `std::regex_replace(cleaned, R"(\s+)", " ")` of
`CleanTextContent`).  The flag records whether the previous character was
whitespace. -/
def collapseWs : Bool → List Char → List Char
  | _, [] => []
  | prevWs, c :: rest =>
    if isCppSpace c then
      if prevWs then collapseWs true rest else ' ' :: collapseWs true rest
    else c :: collapseWs false rest

/-- `XMLSchemaInference::CleanTextContent`: trim leading/trailing whitespace
(`StringUtil::Trim`), then collapse interior whitespace runs to single
spaces. -/
def cleanTextContent (s : String) : String :=
  let trimmed :=
    ((s.toList.dropWhile isCppSpace).reverse.dropWhile isCppSpace).reverse
  String.mk (collapseWs false trimmed)

/-! ## Scalar detection predicates (`IsBoolean` … `IsTimestamp`)

`IsInteger`/`IsDouble` call `std::stoll`/`std::stod` and require the parse to
consume the whole string (`pos == value.length()`); a thrown
`std::invalid_argument` (no parse) or `std::out_of_range` (overflow, and for
`stod` on glibc also underflow into the subnormal range) makes them return
false.  The numeric parsers are modelled below with explicit prefix
semantics so the same definitions serve `ConvertToValue`, which calls
`std::stoi`/`std::stoll`/`std::stod` without the whole-string check. -/

/-- The numeric value of a digit run. -/
def digitsVal (ds : List Char) : Nat :=
  ds.foldl (fun acc c => 10 * acc + (c.toNat - '0'.toNat)) 0

/-- Signed decimal prefix parse shared by `std::stoi`/`std::stoll` (base 10):
skip whitespace, optional sign, then a non-empty digit run; returns the value
and the unconsumed suffix, or `none` when there is no digit (the C++ throws
`std::invalid_argument`) or the value leaves `[lo, hi]` (it throws
`std::out_of_range`). -/
def strtollRange (lo hi : Int) (cs : List Char) : Option (Int × List Char) :=
  let cs1 := cs.dropWhile isCppSpace
  let signAndRest : Bool × List Char :=
    match cs1 with
    | '-' :: r => (true, r)
    | '+' :: r => (false, r)
    | r => (false, r)
  let ds := signAndRest.2.takeWhile Char.isDigit
  let rest := signAndRest.2.dropWhile Char.isDigit
  if ds = [] then none
  else
    let v : Int := (if signAndRest.1 then -1 else 1) * (digitsVal ds : Int)
    if v < lo ∨ hi < v then none else some (v, rest)

/-- `std::stoll` prefix parse (range of `long long`). -/
def stollParse (cs : List Char) : Option (Int × List Char) :=
  strtollRange (-(2 ^ 63)) (2 ^ 63 - 1) cs

/-- `std::stoi` prefix parse (range of `int`). -/
def stoiParse (cs : List Char) : Option (Int × List Char) :=
  strtollRange (-(2 ^ 31)) (2 ^ 31 - 1) cs

/-- `XMLSchemaInference::IsInteger`: non-empty, and `std::stoll` consumes the
whole string without throwing. -/
def isIntegerStr (s : String) : Bool :=
  s ≠ "" &&
    match stollParse s.toList with
    | some (_, rest) => rest = []
    | none => false

/-- Largest magnitude below the IEEE binary64 rounding threshold to infinity:
values with `|v| ≥ 2^1024 − 2^970` round to infinity, which `strtod` reports
as `ERANGE` and `std::stod` turns into `std::out_of_range`. -/
def dblOverflowBound : ℚ := (2 : ℚ) ^ (1024 : ℕ) - (2 : ℚ) ^ (970 : ℕ)

/-- Smallest positive normal binary64 value `2^-1022`; glibc `strtod` reports
`ERANGE` for non-zero results below it (subnormal or zero), and `std::stod`
then throws.  (Exactly-representable subnormal edge cases are modelled the
same way.) -/
def dblUnderflowBound : ℚ := 1 / (2 : ℚ) ^ (1022 : ℕ)

/-- The result of a successful `strtod` prefix parse: the exact rational
value of the consumed numeral (binary64 rounding is not modelled — no claim
depends on a converted double's numeric payload) and the unconsumed suffix. -/
def stodCheckRange (v : ℚ) (rest : List Char) : Option (ℚ × List Char) :=
  if dblOverflowBound ≤ |v| then none
  else if v ≠ 0 ∧ |v| < dblUnderflowBound then none
  else some (v, rest)

/-- Parse the digits-and-dot part of a decimal numeral: a digit run with an
optional dot inside (`D+ [. D*]` or `. D+`).  Returns mantissa as a natural
number, the count of fractional digits, and the unconsumed suffix; `none`
when no digit is consumed. -/
def parseDecMantissa (cs : List Char) : Option (Nat × Nat × List Char) :=
  let ip := cs.takeWhile Char.isDigit
  let afterIp := cs.dropWhile Char.isDigit
  match afterIp with
  | '.' :: r =>
    let fp := r.takeWhile Char.isDigit
    let rest := r.dropWhile Char.isDigit
    if ip = [] ∧ fp = [] then none
    else some (digitsVal (ip ++ fp), fp.length, rest)
  | _ => if ip = [] then none else some (digitsVal ip, 0, afterIp)

/-- Parse an optional exponent part `[eE] sign? D+` (or `[pP]` for hex).
If the marker is present but no digits follow, `strtod` backtracks to before
the marker, so the exponent is simply absent and the marker stays
unconsumed. -/
def parseExponent (marker1 marker2 : Char) (cs : List Char) : Int × List Char :=
  match cs with
  | m :: r =>
    if m = marker1 ∨ m = marker2 then
      let signAndRest : Bool × List Char :=
        match r with
        | '-' :: r2 => (true, r2)
        | '+' :: r2 => (false, r2)
        | r2 => (false, r2)
      let ds := signAndRest.2.takeWhile Char.isDigit
      if ds = [] then (0, cs)
      else
        ((if signAndRest.1 then -1 else 1) * (digitsVal ds : Int),
          signAndRest.2.dropWhile Char.isDigit)
    else (0, cs)
  | [] => (0, cs)

/-- A hexadecimal digit's value, if it is one. -/
def hexVal (c : Char) : Option Nat :=
  if '0' ≤ c ∧ c ≤ '9' then some (c.toNat - '0'.toNat)
  else if 'a' ≤ c ∧ c ≤ 'f' then some (c.toNat - 'a'.toNat + 10)
  else if 'A' ≤ c ∧ c ≤ 'F' then some (c.toNat - 'A'.toNat + 10)
  else none

/-- Whether the character is a hexadecimal digit. -/
def isHexDigit (c : Char) : Bool := (hexVal c).isSome

/-- The numeric value of a hex digit run. -/
def hexDigitsVal (ds : List Char) : Nat :=
  ds.foldl (fun acc c => 16 * acc + ((hexVal c).getD 0)) 0

/-- Parse the hex-digits-and-dot part of a hexadecimal numeral
(`H+ [. H*]` or `. H+`), as `parseDecMantissa`. -/
def parseHexMantissa (cs : List Char) : Option (Nat × Nat × List Char) :=
  let ip := cs.takeWhile isHexDigit
  let afterIp := cs.dropWhile isHexDigit
  match afterIp with
  | '.' :: r =>
    let fp := r.takeWhile isHexDigit
    let rest := r.dropWhile isHexDigit
    if ip = [] ∧ fp = [] then none
    else some (hexDigitsVal (ip ++ fp), fp.length, rest)
  | _ => if ip = [] then none else some (hexDigitsVal ip, 0, afterIp)

/-- Case-insensitive match of a keyword against a prefix of `cs`; returns the
rest on success. -/
def matchKeyword : List Char → List Char → Option (List Char)
  | [], cs => some cs
  | _ :: _, [] => none
  | k :: ks, c :: cs => if lowerChar c = k then matchKeyword ks cs else none

/-- Integer power of a rational with integer exponent (helper for exact
magnitude checks). -/
def qpow (b : ℚ) (e : Int) : ℚ :=
  if 0 ≤ e then b ^ e.toNat else 1 / b ^ (-e).toNat

/-- `std::stod` prefix parse (the decimal, hexadecimal, infinity and nan
forms of `strtod`): skip whitespace and sign, then the longest valid numeral.
Returns `none` when nothing parses (`std::invalid_argument`) or the value
overflows/underflows (`std::out_of_range`, see the bounds above).
`nan(char-sequence)` bodies are not modelled; a plain case-insensitive `nan`
or `inf`/`infinity` is.  NaN and infinity results are represented by `0`
(their payload is never inspected by this core). -/
def stodParse (cs : List Char) : Option (ℚ × List Char) :=
  let cs1 := cs.dropWhile isCppSpace
  let signAndRest : Bool × List Char :=
    match cs1 with
    | '-' :: r => (true, r)
    | '+' :: r => (false, r)
    | r => (false, r)
  let sgn : ℚ := if signAndRest.1 then -1 else 1
  let body := signAndRest.2
  match matchKeyword ['i', 'n', 'f', 'i', 'n', 'i', 't', 'y'] body with
  | some rest => some (0, rest)
  | none =>
  match matchKeyword ['i', 'n', 'f'] body with
  | some rest => some (0, rest)
  | none =>
  match matchKeyword ['n', 'a', 'n'] body with
  | some rest => some (0, rest)
  | none =>
  match body with
  | '0' :: x :: r =>
    if (x = 'x' ∨ x = 'X') ∧ (parseHexMantissa r).isSome then
      match parseHexMantissa r with
      | some (m, fracLen, r2) =>
        let pe := parseExponent 'p' 'P' r2
        stodCheckRange (sgn * (m : ℚ) * qpow 2 (pe.1 - 4 * (fracLen : Int)))
          pe.2
      | none => none
    else
      match parseDecMantissa body with
      | some (m, fracLen, r2) =>
        let ee := parseExponent 'e' 'E' r2
        stodCheckRange (sgn * (m : ℚ) * qpow 10 (ee.1 - (fracLen : Int))) ee.2
      | none => none
  | _ =>
    match parseDecMantissa body with
    | some (m, fracLen, r2) =>
      let ee := parseExponent 'e' 'E' r2
      stodCheckRange (sgn * (m : ℚ) * qpow 10 (ee.1 - (fracLen : Int))) ee.2
    | none => none

/-- `XMLSchemaInference::IsDouble`: non-empty, and `std::stod` consumes the
whole string without throwing. -/
def isDoubleStr (s : String) : Bool :=
  s ≠ "" &&
    match stodParse s.toList with
    | some (_, rest) => rest = []
    | none => false

/-- `XMLSchemaInference::IsBoolean`. -/
def isBooleanStr (s : String) : Bool :=
  ["true", "false", "yes", "no", "1", "0", "on", "off"].contains (lowerStr s)

/-- Exact-shape match `\d{4} sep \d{2} sep \d{2}` (whole string, as
`std::regex_match`). -/
def isYmdShape (sep : Char) : List Char → Bool
  | [a, b, c, d, s1, e, f, s2, g, h] =>
    [a, b, c, d, e, f, g, h].all Char.isDigit ∧ s1 = sep ∧ s2 = sep
  | _ => false

/-- Exact-shape match `\d{2} sep \d{2} sep \d{4}` (whole string). -/
def isMdyShape (sep : Char) : List Char → Bool
  | [a, b, s1, c, d, s2, e, f, g, h] =>
    [a, b, c, d, e, f, g, h].all Char.isDigit ∧ s1 = sep ∧ s2 = sep
  | _ => false

/-- `XMLSchemaInference::IsDate`: one of the four anchored patterns
`YYYY-MM-DD`, `MM/DD/YYYY`, `YYYY/MM/DD`, `MM-DD-YYYY` (digit shapes only —
the regexes do not check calendar validity). -/
def isDateStr (s : String) : Bool :=
  isYmdShape '-' s.toList ∨ isMdyShape '/' s.toList ∨
    isYmdShape '/' s.toList ∨ isMdyShape '-' s.toList

/-- `XMLSchemaInference::IsTime`: anchored `\d2:\d2`, `\d2:\d2:\d2` or
`\d2:\d2:\d2.\d+`. -/
def isTimeStr (s : String) : Bool :=
  match s.toList with
  | [a, b, c, d, e] => [a, b, d, e].all Char.isDigit ∧ c = ':'
  | [a, b, c, d, e, f, g, h] =>
    [a, b, d, e, g, h].all Char.isDigit ∧ c = ':' ∧ f = ':'
  | a :: b :: c :: d :: e :: f :: g :: h :: i :: rest =>
    [a, b, d, e, g, h].all Char.isDigit ∧ c = ':' ∧ f = ':' ∧ i = '.' ∧
      rest ≠ [] ∧ rest.all Char.isDigit
  | _ => false

/-- The part after the seconds of a timestamp pattern: nothing, `.\d+`
(fraction), or `Z`; the latter two are only allowed with the `T` separator. -/
def tsTailOk (sep : Char) (rest : List Char) : Bool :=
  match rest with
  | [] => sep = 'T' ∨ sep = ' '
  | ['Z'] => sep = 'T'
  | '.' :: ds => sep = 'T' ∧ ds ≠ [] ∧ ds.all Char.isDigit
  | _ => false

/-- `XMLSchemaInference::IsTimestamp`: anchored `\d4-\d2-\d2T\d2:\d2:\d2`
with either nothing, a fractional part `.\d+`, or a literal `Z` after the
seconds, or the same with a space separator and nothing after the seconds. -/
def isTimestampStr (s : String) : Bool :=
  match s.toList with
  | y1 :: y2 :: y3 :: y4 :: d1 :: m1 :: m2 :: d2 :: dd1 :: dd2 :: sep ::
      h1 :: h2 :: c1 :: mi1 :: mi2 :: c2 :: s1 :: s2 :: rest =>
    [y1, y2, y3, y4, m1, m2, dd1, dd2, h1, h2, mi1, mi2, s1, s2].all
        Char.isDigit ∧
      d1 = '-' ∧ d2 = '-' ∧ c1 = ':' ∧ c2 = ':' ∧ tsTailOk sep rest
  | _ => false

/-! ## Schema options -/

/-- `XMLSchemaOptions` (header `xml_schema_inference.hpp`), restricted to the
fields the schema-inference/extraction core reads.  `attr_pfx` is the
source's `attr_prefix` field (renamed for this file's naming constraints).
`sample_size` is carried for fidelity but the core's per-column sampling is
hard-coded to 20 (`InferColumnType`).  Fields the core never reads
(`text_key`, `tagname_key`, `empty_elements`, `preserve_mixed_content`,
`unnest_as_columns`, `array_threshold`, `max_array_depth`, `ignore_errors`,
`maximum_file_size`, `all_varchar`, `auto_detect`) are omitted. -/
structure XMLSchemaOptions where
  root_element : String := ""
  max_depth : Int := 10
  sample_size : Int := 50
  attr_mode : String := "columns"
  attr_pfx : String := "@"
  namespaces : String := "strip"
  temporal_detection : Bool := true
  numeric_detection : Bool := true
  boolean_detection : Bool := true
  record_element : String := ""
  force_list : String := ""
deriving DecidableEq

/-- The default-constructed `XMLSchemaOptions {}`. -/
def defaultOptions : XMLSchemaOptions := {}

/-- Namespace adjustment applied to element (and nested attribute) names:
strip the prefix when `options.namespaces == "strip"`. -/
def adjustName (o : XMLSchemaOptions) (nm : String) : String :=
  if o.namespaces = "strip" then stripNamespacePfx nm else nm

/-! ## Scalar type detection from samples -/

/-- The per-sample branch of `InferTypeFromSamples`: the first detector that
fires, in the order written in the source, gated by the per-class toggles. -/
def classifySample (o : XMLSchemaOptions) (s : String) : LType :=
  if o.boolean_detection && isBooleanStr s then .boolean
  else if o.numeric_detection && isIntegerStr s then .integer
  else if o.numeric_detection && isDoubleStr s then .double
  else if o.temporal_detection && isDateStr s then .date
  else if o.temporal_detection && isTimestampStr s then .timestamp
  else if o.temporal_detection && isTimeStr s then .time
  else .varchar

/-- The scalar kinds `classifySample` can produce, in a canonical order.
`GetMostSpecificType` iterates a `std::unordered_map` from type id to count
in unspecified order and returns the first entry whose share reaches 0.8; at
most one kind can reach that share (`mostSpecific_unique` below), so the
iteration order is immaterial and the embedding fixes this canonical one. -/
def typeKindOrder : List LType :=
  [.boolean, .integer, .double, .date, .timestamp, .time, .varchar]

/-- `XMLSchemaInference::GetMostSpecificType`.  The C++ comparison is
`double(count) / total >= 0.8`; for the operand sizes at play the division
is exact enough that the comparison coincides with the exact rational test
`count / total ≥ 4/5`, embedded as `4 * total ≤ 5 * count` (both sides are
exactly representable, and when `count/total ≠ 4/5` the two differ by at
least `1/(5*total)`, far above double rounding error). -/
def getMostSpecificType (types : List LType) : LType :=
  if types = [] then .varchar
  else
    match typeKindOrder.find? (fun k => 4 * types.length ≤ 5 * types.count k) with
    | some k => k
    | none => .varchar

/-- `XMLSchemaInference::InferTypeFromSamples`: empty sample vector ⇒
VARCHAR; otherwise classify every non-empty sample (the loop `continue`s on
empty ones) and take the majority type. -/
def inferTypeFromSamples (samples : List String) (o : XMLSchemaOptions) :
    LType :=
  if samples = [] then .varchar
  else
    getMostSpecificType
      ((samples.filter (fun s => s ≠ "")).map (classifySample o))

/-! ## Force-list parsing -/

/-- Whitespace set of the force-list trimming (`" \t\n\r"`). -/
def isFlSpace (c : Char) : Bool :=
  c = ' ' ∨ c = '\t' ∨ c = '\n' ∨ c = '\r'

/-- Trim the force-list whitespace set from both ends. -/
def trimFl (cs : List Char) : List Char :=
  ((cs.dropWhile isFlSpace).reverse.dropWhile isFlSpace).reverse

/-- Split on `'|'`.  (The C++ loop does not visit a trailing empty segment
after a final `'|'`; such a segment is whitespace-only and is discarded by
the caller anyway, so producing it here is immaterial.) -/
def splitBarAux (acc : List Char) : List Char → List (List Char)
  | [] => [acc.reverse]
  | c :: rest =>
    if c = '|' then acc.reverse :: splitBarAux [] rest
    else splitBarAux (c :: acc) rest

/-- `ParseForceListElements` (file-static helper): split the `force_list`
option on `'|'`, trim each segment, and for segments of the shape
`//name...` collect `name` (cut at the first `/`, `[` or `@`).  Membership
in the resulting collection is all that is ever used. -/
def parseForceListElements (s : String) : List String :=
  if s = "" then []
  else
    (splitBarAux [] s.toList).foldl
      (fun acc seg =>
        match trimFl seg with
        | '/' :: '/' :: nm0 =>
          let nm := nm0.takeWhile (fun c => ¬(c = '/' ∨ c = '[' ∨ c = '@'))
          if nm = [] then acc else acc ++ [String.mk nm]
        | _ => acc)
      []

/-! ## Column identification (Phase 2) -/

/-- `ColumnAnalysis` (header): one prospective column.  `instances` holds,
in discovery order, the child element nodes contributing to the column (for
attribute columns, the record nodes themselves). -/
structure ColumnAnalysis where
  name : String
  is_attribute : Bool
  instances : List XMLNode
  occurrence_count : Nat
  repeats_in_record : Bool
deriving DecidableEq

/-- `columns.find`/`emplace` + `push_back` of `IdentifyColumns`: append an
instance to the entry with this name, creating the entry (with the given
attribute flag) if absent.  The C++ container is a `std::unordered_map`;
the embedding keeps entries in first-insertion order (see `inferSchema` for
why the enumeration order is modelled this way). -/
def addInstance (cols : List ColumnAnalysis) (nm : String) (isAttr : Bool)
    (inst : XMLNode) : List ColumnAnalysis :=
  if cols.any (fun c => c.name = nm) then
    cols.map (fun c =>
      if c.name = nm then
        { c with instances := c.instances ++ [inst],
                 occurrence_count := c.occurrence_count + 1 }
      else c)
  else cols ++ [⟨nm, isAttr, [inst], 1, false⟩]

/-- Bump the per-record counter `columns_in_this_record[nm]`. -/
def bumpCount (m : List (String × Nat)) (nm : String) : List (String × Nat) :=
  if m.any (fun p => p.1 = nm) then
    m.map (fun p => if p.1 = nm then (p.1, p.2 + 1) else p)
  else m ++ [(nm, 1)]

/-- The attribute-derived column name: prefixed in `"prefixed"` mode, the
bare attribute name otherwise (`"columns"` and any other non-`"discard"`
mode). -/
def attrColumnName (o : XMLSchemaOptions) (an : String) : String :=
  if o.attr_mode = "prefixed" then o.attr_pfx ++ an else an

/-- The per-record body of `IdentifyColumns`: record the record node's
attributes (unless discarding), then its direct element children, sharing
one per-record counter; finally set `repeats_in_record` for every name that
was touched more than once in this record (the flag is sticky across
records). -/
def processRecord (o : XMLSchemaOptions) (cols : List ColumnAnalysis)
    (rec : XMLNode) : List ColumnAnalysis :=
  let afterAttrs : List ColumnAnalysis × List (String × Nat) :=
    if o.attr_mode ≠ "discard" then
      rec.attrList.foldl
        (fun st a =>
          let nm := attrColumnName o a.1
          (addInstance st.1 nm true rec, bumpCount st.2 nm))
        (cols, [])
    else (cols, [])
  let afterChildren : List ColumnAnalysis × List (String × Nat) :=
    rec.elementChildren.foldl
      (fun st c =>
        let nm := adjustName o c.tag
        (addInstance st.1 nm false c, bumpCount st.2 nm))
      afterAttrs
  afterChildren.2.foldl
    (fun acc p =>
      if p.2 > 1 then
        acc.map (fun c =>
          if c.name = p.1 then { c with repeats_in_record := true } else c)
      else acc)
    afterChildren.1

/-- `XMLSchemaInference::IdentifyColumns` (Phase 2). -/
def identifyColumns (records : List XMLNode) (o : XMLSchemaOptions) :
    List ColumnAnalysis :=
  records.foldl (processRecord o) []

/-! ## Column type inference (Phase 3) -/

/-- The `is_complex` test of `InferColumnType`'s leaf scan: the node has an
element child, or (unless attributes are discarded) any attribute. -/
def nodeIsComplex (o : XMLSchemaOptions) (n : XMLNode) : Bool :=
  n.hasElemChild || (o.attr_mode ≠ "discard" && n.hasAttrs)

/-- `all_leaf` of `InferColumnType`: every instance is a leaf. -/
def allLeafInstances (o : XMLSchemaOptions) (ns : List XMLNode) : Bool :=
  ns.all (fun n => !(nodeIsComplex o n))

/-- The sample values collected during the leaf scan: cleaned text content of
the instances, empty strings skipped, capped at 20 (the cap is hard-coded in
`InferColumnType`; `options.sample_size` is not consulted).  The C++ scan
stops at the first complex instance, but samples are only consumed when all
instances are leaves, in which case no break occurs and the collected list
is exactly this one. -/
def leafSamples (instances : List XMLNode) : List String :=
  ((instances.map (fun n => cleanTextContent (nodeContent n))).filter
    (fun s => s ≠ "")).take 20

/-- `child_counts`: per adjusted tag name, how many element children of the
first instance carry it (insertion-ordered embedding of the C++
`std::unordered_map`; only lookups are performed on it). -/
def childCounts (o : XMLSchemaOptions) (first : XMLNode) :
    List (String × Nat) :=
  first.elementChildren.foldl (fun m c => bumpCount m (adjustName o c.tag)) []

/-- Lookup in a counting map, 0 when absent. -/
def countOf (m : List (String × Nat)) (nm : String) : Nat :=
  ((m.find? (fun p => p.1 = nm)).map (fun p => p.2)).getD 0

/-- The child-field gathering loop shared by both complex branches of
`InferColumnType`: walk the first instance's element children in document
order, process each distinct adjusted tag once (`seen_children`), and build
one struct field per distinct tag by running the given inference function on
the synthetic one-instance `ColumnAnalysis` the source constructs
(`instances = [child]`, `occurrence_count = child_counts[name]`,
`repeats_in_record = child_counts[name] > 1`). -/
def buildChildFields (o : XMLSchemaOptions) (first : XMLNode)
    (infer : ColumnAnalysis → LType) : FieldList :=
  let counts := childCounts o first
  (first.elementChildren.foldl
    (fun (st : List String × FieldList) c =>
      let nm := adjustName o c.tag
      if st.1.contains nm then st
      else
        (st.1 ++ [nm],
          st.2.append
            (FieldList.cons nm
              (infer ⟨nm, false, [c], countOf counts nm,
                decide (1 < countOf counts nm)⟩)
              .nil)))
    ([], .nil)).2

/-- The attribute struct fields of the repeating branch: one VARCHAR field
per attribute of the first instance, in declaration order, names
namespace-adjusted; empty when attributes are discarded. -/
def attrStructFields (o : XMLSchemaOptions) (first : XMLNode) : FieldList :=
  if o.attr_mode ≠ "discard" then
    first.attrList.foldr
      (fun a acc => FieldList.cons (adjustName o a.1) .varchar acc) .nil
  else .nil

/-- The body of `XMLSchemaInference::InferColumnType` (Phase 3), with the
depth comparison `remaining_depth <= 0` abstracted into `depthExhausted` and
the recursive call (made at `remaining_depth - 1`) abstracted into
`recurse`.

Branch structure, as in the source: attribute columns are VARCHAR; columns
whose instances are all leaves get the sampled scalar type (wrapped in LIST
only when force-listed — `repeats_in_record` is not consulted here); complex
columns at exhausted depth get XML (LIST(XML) only when force-listed);
otherwise the repeating-or-forced branch returns LIST(STRUCT(attr fields ++
child fields)) (LIST(XML) when no fields), and the remaining single-complex
branch returns STRUCT(child fields only — no attribute gathering) or XML
when there are no child fields. -/
def inferColumnTypeBody (o : XMLSchemaOptions) (ca : ColumnAnalysis)
    (depthExhausted : Bool) (recurse : ColumnAnalysis → LType) : LType :=
  if ca.is_attribute then .varchar
  else
    let forced := (parseForceListElements o.force_list).contains ca.name
    if allLeafInstances o ca.instances then
      let t := inferTypeFromSamples (leafSamples ca.instances) o
      if forced then .list t else t
    else if depthExhausted then
      if forced then .list .xml else .xml
    else
      let first := ca.instances.headD (XMLNode.text "")
      let childFields := buildChildFields o first recurse
      if ca.repeats_in_record || forced then
        let fields := (attrStructFields o first).append childFields
        if fields = .nil then .list .xml else .list (.strct fields)
      else if childFields = .nil then .xml
      else .strct childFields

/-- `InferColumnType` with the `int remaining_depth` parameter replaced by a
`Nat` fuel (recursion by `Nat.rec`, so the definition reduces in the
kernel).  At fuel 0 the recursion function passed to the body is never
reached — the depth-exhausted branch returns first — so a constant stands in
for it. -/
def inferColumnTypeN (o : XMLSchemaOptions) (fuel : Nat)
    (ca : ColumnAnalysis) : LType :=
  Nat.rec (motive := fun _ => ColumnAnalysis → LType)
    (fun ca0 => inferColumnTypeBody o ca0 true (fun _ => .varchar))
    (fun _ ih ca0 => inferColumnTypeBody o ca0 false ih)
    fuel ca

/-- `InferColumnType` with the source's `int remaining_depth` interface.
`Int.toNat` sends every non-positive depth to fuel 0, which is exact because
the C++ body only tests `remaining_depth <= 0` and only recurses (with
`remaining_depth - 1`) when `remaining_depth > 0`, mirrored by
`(d - 1).toNat = d.toNat - 1` there.  When all instances are leaves the
depth is never read, also as in the source. -/
def inferColumnType (ca : ColumnAnalysis) (remaining_depth : Int)
    (o : XMLSchemaOptions) : LType :=
  inferColumnTypeN o remaining_depth.toNat ca

/-! ## Record identification (Phase 1) and schema assembly -/

/-- The depth cap applied in both `InferSchema` and
`IdentifyRecordElements`: values above 20 or below 0 become 20. -/
def effectiveDepth (d : Int) : Int := if 20 < d ∨ d < 0 then 20 else d

/-- The "simple tag name" test of `IdentifyRecordElements`: no XPath syntax
(`/`, `[`, `@`) anywhere in the string. -/
def isSimpleTagName (s : String) : Bool :=
  !(s.toList.any (fun c => c = '/' ∨ c = '[' ∨ c = '@'))

/-- The record-locator lookup for `options.record_element`.  The source
rewrites a simple tag name `t` (or `//t`) to the namespace-agnostic XPath
`//*[local-name()='t']` and evaluates it; the embedding evaluates that form
directly.  A general XPath expression goes to the external libxml evaluator,
which is outside the embedded fragment: the embedding returns no matches for
it (the silent-error path of the source also yields no matches for
unresolvable expressions), and theorems quantifying over options do not rely
on this branch. -/
def recordXPathTargets (root : XMLNode) (re : String) : List XMLNode :=
  if isSimpleTagName re then descendantsLocalName re root
  else if re.toList.take 2 = ['/', '/'] ∧
      isSimpleTagName (String.mk (re.toList.drop 2)) then
    let nm := String.mk (re.toList.drop 2)
    if nm = "" then [] else descendantsLocalName nm root
  else []

/-- `XMLSchemaInference::IdentifyRecordElements` (Phase 1): effective depth 0
makes the root the only record; otherwise a non-empty `record_element` is
located by XPath; otherwise a non-empty `root_element` relocates the root to
the first element named `//root_element` (keeping the original root when
there is no match) and its direct element children become the records;
otherwise the root's direct element children are the records.  The
`root_element` lookup is embedded for plain names (the `//name` XPath); a
`root_element` containing XPath syntax is outside the embedded fragment. -/
def identifyRecordElements (root : XMLNode) (o : XMLSchemaOptions) :
    List XMLNode :=
  if effectiveDepth o.max_depth = 0 then [root]
  else if o.record_element ≠ "" then recordXPathTargets root o.record_element
  else if o.root_element ≠ "" then
    let newRoot := (descendantsNamed o.root_element root).headD root
    newRoot.elementChildren
  else root.elementChildren

/-- `XMLColumnInfo` (header), restricted to the fields `InferSchema`
populates meaningfully: the `xpath` member is always passed `""` and
`sample_values` is never filled, so both are omitted.  `confidence` is the
exact rational `occurrence_count / record_count`; the C++ stores its double
rounding, and no claim compares confidences finely enough for the rounding
to matter. -/
structure XMLColumnInfo where
  name : String
  type : LType
  is_attribute : Bool
  confidence : ℚ
deriving DecidableEq

/-- `XMLSchemaInference::InferSchema` on an already-parsed root element.
The two pre-parse fallbacks of the source (unparsable document, missing root
element) precede this function and belong to the external parser; both
produce the same single `("content", VARCHAR)` column as the no-records
fallback embedded here.

Phase 3 of the source iterates the `std::unordered_map` of Phase 2; for a
fixed library implementation that order is a deterministic function of the
inserted keys, and the embedding fixes it to first-insertion order.
Theorems and counterexamples below do not depend on the relative order of
two different columns, except through this modelled order. -/
def inferSchema (root : XMLNode) (o : XMLSchemaOptions) :
    List XMLColumnInfo :=
  let records := identifyRecordElements root o
  if records = [] then [⟨"content", .varchar, false, 1⟩]
  else
    let remaining : Int := effectiveDepth o.max_depth - 2
    if remaining < 0 then
      [⟨adjustName o ((records.headD (XMLNode.text "")).tag), .xml, false, 1⟩]
    else
      let cols := (identifyColumns records o).map
        (fun ca =>
          (⟨ca.name, inferColumnType ca remaining o, ca.is_attribute,
            mkRat ca.occurrence_count records.length⟩ : XMLColumnInfo))
      if cols = [] then [⟨"content", .varchar, false, 1⟩] else cols

/-! ## Value conversion and data extraction -/

/-- Gregorian leap year. -/
def isLeapYear (y : Nat) : Bool := y % 4 = 0 ∧ (y % 100 ≠ 0 ∨ y % 400 = 0)

/-- Days in a month of the proleptic Gregorian calendar. -/
def daysInMonth (y m : Nat) : Nat :=
  if m = 2 then (if isLeapYear y then 29 else 28)
  else if m = 4 ∨ m = 6 ∨ m = 9 ∨ m = 11 then 30
  else 31

/-- Model of the external DuckDB `Date::FromString` as invoked by
`ConvertToValue`, which guards it with `length == 10 && text[4] == '-' &&
text[7] == '-'`: an all-digit `YYYY-MM-DD` with a calendar-valid month and
day parses; anything else (which the real parser would reject with a thrown
conversion error, handled by the caller) yields `none`. -/
def dateFromString (s : String) : Option (Nat × Nat × Nat) :=
  match s.toList with
  | [a, b, c, d, h1, e, f, h2, g, h] =>
    if [a, b, c, d, e, f, g, h].all Char.isDigit ∧ h1 = '-' ∧ h2 = '-' then
      let y := digitsVal [a, b, c, d]
      let m := digitsVal [e, f]
      let dd := digitsVal [g, h]
      if 1 ≤ m ∧ m ≤ 12 ∧ 1 ≤ dd ∧ dd ≤ daysInMonth y m then some (y, m, dd)
      else none
    else none
  | _ => none

/-- An optional trailing time-zone suffix: nothing, `Z`, or `±HH[:MM]`
(offset value not retained — the instant arithmetic of the external library
is not observed by this core). -/
def zoneSuffixOk : List Char → Bool
  | [] => true
  | ['Z'] => true
  | c :: d1 :: d2 :: rest =>
    if (c = '+' ∨ c = '-') ∧ [d1, d2].all Char.isDigit then
      match rest with
      | [] => true
      | [co, e1, e2] => co = ':' ∧ [e1, e2].all Char.isDigit
      | _ => false
    else false
  | _ => false

/-- Time-of-day with optional seconds, fraction and zone, consuming the whole
input: `HH:MM[:SS[.fff]][zone]`. -/
def parseTimeAndZone (cs : List Char) : Option (Nat × Nat × Nat × Nat) :=
  match cs with
  | h1 :: h2 :: c1 :: m1 :: m2 :: rest =>
    if [h1, h2, m1, m2].all Char.isDigit ∧ c1 = ':' ∧
        digitsVal [h1, h2] < 24 ∧ digitsVal [m1, m2] < 60 then
      match rest with
      | ':' :: s1 :: s2 :: rest2 =>
        if [s1, s2].all Char.isDigit ∧ digitsVal [s1, s2] < 60 then
          match rest2 with
          | '.' :: ds =>
            let fr := ds.takeWhile Char.isDigit
            if fr ≠ [] ∧ zoneSuffixOk (ds.dropWhile Char.isDigit) then
              some (digitsVal [h1, h2], digitsVal [m1, m2],
                digitsVal [s1, s2], digitsVal fr)
            else none
          | _ =>
            if zoneSuffixOk rest2 then
              some (digitsVal [h1, h2], digitsVal [m1, m2],
                digitsVal [s1, s2], 0)
            else none
        else none
      | _ =>
        if zoneSuffixOk rest then
          some (digitsVal [h1, h2], digitsVal [m1, m2], 0, 0)
        else none
    else none
  | _ => none

/-- Model of the external DuckDB `Timestamp::FromString` at the level this
core observes (success/failure and components): a calendar-valid
`YYYY-MM-DD`, optionally followed by `T` or a space and a time of day with
optional fraction and zone.  A date alone is midnight. -/
def timestampFromString (s : String) :
    Option (Nat × Nat × Nat × Nat × Nat × Nat × Nat) :=
  let cs := s.toList
  match dateFromString (String.mk (cs.take 10)) with
  | none => none
  | some (y, m, d) =>
    match cs.drop 10 with
    | [] => some (y, m, d, 0, 0, 0, 0)
    | sep :: rest =>
      if sep = 'T' ∨ sep = ' ' then
        match parseTimeAndZone rest with
        | some (h, mi, sec, frac) => some (y, m, d, h, mi, sec, frac)
        | none => none
      else none

mutual
/-- DuckDB `Value` objects reachable from this core.  `nullv t` is the typed
NULL `Value(t)`; the default-constructed `Value()` is `nullv .sqlnull`.
`doublev` carries the exact rational of the parse (binary64 rounding not
modelled; no claim inspects a converted double's payload), `datev`/`tsv`
carry the parsed components. -/
inductive XValue where
  | nullv (t : LType)
  | boolv (b : Bool)
  | intv (i : Int)
  | bigintv (i : Int)
  | doublev (q : ℚ)
  | datev (y m d : Nat)
  | tsv (y m d h mi sec frac : Nat)
  | strv (s : String)
  | listv (elem : LType) (vals : XValueList)
  | structv (fields : XFieldList)
deriving DecidableEq
inductive XValueList where
  | nil
  | cons (v : XValue) (rest : XValueList)
deriving DecidableEq
inductive XFieldList where
  | nil
  | cons (name : String) (v : XValue) (rest : XFieldList)
deriving DecidableEq
end

/-- Build an `XValueList` from an ordinary list. -/
def XValueList.ofList : List XValue → XValueList
  | [] => .nil
  | v :: rest => .cons v (XValueList.ofList rest)

/-- The default-constructed `Value()`, a NULL of type SQLNULL. -/
def nullValue : XValue := .nullv .sqlnull

/-- `XMLSchemaInference::ConvertToValue`.  Empty text is `Value()`.  The
body is a `switch` on the target type inside one `try { ... } catch (...) {
return Value(text); }`; thrown parse errors are the `none` branches of the
embedded parsers.  Boolean recognizes the fixed token lists and otherwise
returns `Value()` (a NULL, not the raw text).  INTEGER/BIGINT/DOUBLE use the
prefix parses of `std::stoi`/`std::stoll`/`std::stod` (trailing garbage is
ignored, only a fully failed or out-of-range parse throws).  DATE parses
only the guarded `YYYY-MM-DD` shape and falls back to the raw text
otherwise; TIMESTAMP falls back to raw text when the parse throws.  Every
other target (VARCHAR, the `default:` label — which includes TIME, XML,
LIST and STRUCT targets) returns the text as a string value. -/
def convertToValue (text : String) (t : LType) : XValue :=
  if text = "" then nullValue
  else
    match t with
    | .boolean =>
      let l := lowerStr text
      if ["true", "yes", "1", "on"].contains l then .boolv true
      else if ["false", "no", "0", "off"].contains l then .boolv false
      else nullValue
    | .integer =>
      match stoiParse text.toList with
      | some p => .intv p.1
      | none => .strv text
    | .bigint =>
      match stollParse text.toList with
      | some p => .bigintv p.1
      | none => .strv text
    | .double =>
      match stodParse text.toList with
      | some p => .doublev p.1
      | none => .strv text
    | .date =>
      match dateFromString text with
      | some (y, m, d) => .datev y m d
      | none => .strv text
    | .timestamp =>
      match timestampFromString text with
      | some (y, m, d, h, mi, sec, frac) => .tsv y m d h mi sec frac
      | none => .strv text
    | _ => .strv text

mutual
/-- `XMLSchemaInference::ExtractValueFromNode`: LIST and STRUCT targets are
delegated (the source's `ExtractListFromNode` collects every element child
in document order and converts each to the element type;
`ExtractStructFromNode` is `extractStructFields`); every other target takes
the node's cleaned text content through `ConvertToValue`. -/
def extractValueFromNode (node : XMLNode) : LType → XValue
  | .list et =>
    .listv et
      (XValueList.ofList
        (node.elementChildren.map (fun c => extractValueFromNode c et)))
  | .strct fs => .structv (extractStructFields node fs)
  | t => convertToValue (cleanTextContent (nodeContent node)) t
/-- `XMLSchemaInference::ExtractStructFromNode`, field by field: an
attribute of the node with the field's name wins, else the first element
child with that tag is extracted recursively, else the field is a typed
NULL `Value(field_type)`. -/
def extractStructFields (node : XMLNode) : FieldList → XFieldList
  | .nil => .nil
  | .cons fn ft rest =>
    let v :=
      match attrLookup node fn with
      | some s => convertToValue s ft
      | none =>
        match node.elementChildren.find? (fun c => c.tag = fn) with
        | some c => extractValueFromNode c ft
        | none => XValue.nullv ft
    .cons fn v (extractStructFields node rest)
end

/-- One cell of `ExtractDataWithSchema`: the record's attribute with the
column's name wins (its text goes through `ConvertToValue`, whatever the
column type), else the first element child whose tag equals the column name
(no namespace adjustment here, as in the source's `xmlStrcmp`) is extracted,
else the cell is the typed NULL `Value(column_type)`. -/
def extractCell (rec : XMLNode) (nm : String) (t : LType) : XValue :=
  match attrLookup rec nm with
  | some s => convertToValue s t
  | none =>
    match rec.elementChildren.find? (fun c => c.tag = nm) with
    | some c => extractValueFromNode c t
    | none => XValue.nullv t

/-- One row of `ExtractDataWithSchema`: one cell per schema column, in
schema order. -/
def extractRow (cols : List (String × LType)) (rec : XMLNode) : List XValue :=
  cols.map (fun p => extractCell rec p.1 p.2)

/-- `XMLSchemaInference::ExtractDataWithSchema` on an already-parsed root:
empty result on a name/type arity mismatch or an empty schema; otherwise one
row per direct element child of the root, in document order.  The
`options` parameter is accepted and never read, exactly as in the source
(`options.record_element`, `options.root_element` and `options.max_depth`
are not consulted here). -/
def extractDataWithSchema (root : XMLNode) (column_names : List String)
    (column_types : List LType) (_o : XMLSchemaOptions) :
    List (List XValue) :=
  if column_names.length ≠ column_types.length then []
  else if column_names = [] then []
  else root.elementChildren.map (extractRow (column_names.zip column_types))

/-! ## Spec-side definitions (for refinement claims)

These follow the specification's wording, to be compared with the
definitions translated from the source. -/

/-- Spec §4.4, per-sample rule: "test in this exact priority order (first
match wins): Boolean → Integer → Double → Date → Timestamp → Time →
String" (claim C1 fixes default options, where every detection toggle is
on). -/
def specSampleKind (s : String) : LType :=
  if isBooleanStr s then .boolean
  else if isIntegerStr s then .integer
  else if isDoubleStr s then .double
  else if isDateStr s then .date
  else if isTimestampStr s then .timestamp
  else if isTimeStr s then .time
  else .varchar

/-- Spec §4.4, aggregation rule: "Tally per-kind counts over non-empty
samples; if one kind's share ≥ homogeneity threshold (default 0.8) of
non-empty samples, return that kind; else return String.  Empty sample list
⇒ String."  The share test is the exact rational comparison (see
`getMostSpecificType`); `mostSpecific_unique` below shows at most one kind
can pass it, so "that kind" is well defined and `find?` over the canonical
order returns it. -/
def specDetect (samples : List String) : LType :=
  let ne := samples.filter (fun s => s ≠ "")
  if ne = [] then .varchar
  else
    match typeKindOrder.find?
        (fun k => 4 * ne.length ≤ 5 * (ne.map specSampleKind).count k) with
    | some k => k
    | none => .varchar

/-- The amended single-complex-instance rule of claim C5, following the
spec's wording for the first-instance inspection minus the attribute
gathering the code does not perform in this branch: gather the first
instance's direct element children deduplicated by tag in first-seen order,
inferring each field at `remainingDepth - 1`; bare Struct if any fields were
found, else OpaqueDocument. -/
def singleComplexSpec (ca : ColumnAnalysis) (d : Int)
    (o : XMLSchemaOptions) : LType :=
  let first := ca.instances.headD (XMLNode.text "")
  let childFields :=
    buildChildFields o first (fun ca2 => inferColumnType ca2 (d - 1) o)
  if childFields = .nil then .xml else .strct childFields

/-- The per-target parse-failure predicate of the amended claim C8: the
condition under which the corresponding `ConvertToValue` case does not
produce a typed value.  Boolean fails on any text outside the two recognized
token lists; the numeric targets fail when the prefix parse throws; DATE and
TIMESTAMP fail when their parse rejects; the remaining targets (VARCHAR and
everything reaching the `default:` label) never fail. -/
def scalarParseFails (t : LType) (text : String) : Bool :=
  match t with
  | .boolean =>
    !(["true", "yes", "1", "on"].contains (lowerStr text) ||
      ["false", "no", "0", "off"].contains (lowerStr text))
  | .integer => (stoiParse text.toList).isNone
  | .bigint => (stollParse text.toList).isNone
  | .double => (stodParse text.toList).isNone
  | .date => (dateFromString text).isNone
  | .timestamp => (timestampFromString text).isNone
  | _ => false

/-! ## Concrete inputs used by witnesses and counterexamples -/

/-- A leaf element `<tag>s</tag>`. -/
def leafNode (tag s : String) : XMLNode := .elem tag [] (.cons (.text s) .nil)

/-- `<a><b>x</b></a>` — a complex (non-leaf) element. -/
def abNode : XMLNode :=
  .elem "a" [] (.cons (.elem "b" [] (.cons (.text "x") .nil)) .nil)

/-- A complex column that repeats in its record (three `<a><b>x</b></a>`
instances), as `IdentifyColumns` would build it. -/
def colComplexRepeats : ColumnAnalysis :=
  ⟨"a", false, [abNode, abNode, abNode], 3, true⟩

/-- `<root><item><a><b>x</b></a><a>...</a><a>...</a></item></root>` — a
document whose single record holds three same-named complex children. -/
def docNestedTriple : XMLNode :=
  .elem "root" []
    (.cons (.elem "item" [] (NodeList.ofList [abNode, abNode, abNode])) .nil)

/-- `<root><item><tag>a</tag><tag>b</tag><tag>c</tag></item></root>` — the
spec's E2E 2 document: one record with three same-named leaf children. -/
def docTagTriple : XMLNode :=
  .elem "root" []
    (.cons
      (.elem "item" []
        (NodeList.ofList [leafNode "tag" "a", leafNode "tag" "b",
          leafNode "tag" "c"]))
      .nil)

/-- `<root><item><x>7</x><y>8</y></item></root>` — one record, two leaf
columns. -/
def docTwoLeafCols : XMLNode :=
  .elem "root" []
    (.cons (.elem "item" [] (NodeList.ofList [leafNode "x" "7",
      leafNode "y" "8"])) .nil)

/-- Options requesting a negative introspection depth. -/
def optsNegDepth : XMLSchemaOptions := { defaultOptions with max_depth := -1 }

/-- Options with depth 1 (records located, but no budget to look inside). -/
def optsDepthOne : XMLSchemaOptions := { defaultOptions with max_depth := 1 }

/-- A single-instance complex column whose only instance carries an
attribute and no element children: `<a id="1"/>` once per record. -/
def colSingleAttrOnly : ColumnAnalysis :=
  ⟨"a", false, [.elem "a" [("id", "1")] .nil], 1, false⟩

/-- A single-instance complex column with repeated and distinct child tags:
`<a><b>x</b><b>y</b><c>true</c></a>` once per record. -/
def colSingleComplex : ColumnAnalysis :=
  ⟨"a", false,
    [.elem "a" []
      (NodeList.ofList [leafNode "b" "x", leafNode "b" "y",
        leafNode "c" "true"])],
    1, false⟩

/-- `<root><item/><item/></root>` — records exist but carry no attributes
and no children, so column identification finds nothing. -/
def docEmptyItems : XMLNode :=
  .elem "root" []
    (NodeList.ofList [.elem "item" [] .nil, .elem "item" [] .nil])

/-- `<root><item><a>5</a></item></root>`. -/
def docOneItem : XMLNode :=
  .elem "root" [] (.cons (.elem "item" [] (.cons (leafNode "a" "5") .nil)) .nil)

/-- The record node of `docOneItem`. -/
def itemRec : XMLNode := .elem "item" [] (.cons (leafNode "a" "5") .nil)

/-- Options with locator fields set, used to exhibit that explicit-schema
extraction ignores them. -/
def optsLocatorNoise : XMLSchemaOptions :=
  { defaultOptions with
    record_element := "zzz"
    root_element := "www"
    max_depth := 0 }

/-! ## Supporting lemmas -/

/-- Two different values jointly occur at most `length` many times. -/
theorem count_pair_le_length {α : Type} [DecidableEq α] {a b : α}
    (hab : a ≠ b) : ∀ l : List α, l.count a + l.count b ≤ l.length
  | [] => by simp
  | x :: xs => by
    have ih := count_pair_le_length hab xs
    have hx : ¬(a = x ∧ b = x) := fun h => hab (h.1.trans h.2.symm)
    simp only [List.count_cons, List.length_cons, beq_iff_eq]
    by_cases hax : a = x <;> by_cases hbx : b = x <;>
      simp [hax, hbx, eq_comm] at hx ih ⊢ <;> omega

/-- At most one kind can reach the 0.8 share of a non-empty tally — the
reason `GetMostSpecificType`'s unordered-map iteration order is immaterial
and the canonical `typeKindOrder` enumeration is a faithful embedding. -/
theorem mostSpecific_unique (ts : List LType) (hts : ts ≠ []) {k1 k2 : LType}
    (h1 : 4 * ts.length ≤ 5 * ts.count k1)
    (h2 : 4 * ts.length ≤ 5 * ts.count k2) : k1 = k2 := by
  by_contra hne
  have hc := count_pair_le_length hne ts
  have hl : 0 < ts.length := List.length_pos.mpr hts
  omega

/-- The majority vote never returns a LIST-topped type. -/
theorem getMostSpecificType_isList (ts : List LType) :
    (getMostSpecificType ts).isList = false := by
  unfold getMostSpecificType
  by_cases h : ts = []
  · simp [h, LType.isList]
  · simp only [if_neg h]
    cases hfind : typeKindOrder.find? (fun k => 4 * ts.length ≤ 5 * ts.count k) with
    | none => simp [hfind, LType.isList]
    | some k =>
      simp only [hfind]
      have hk := List.mem_of_find?_eq_some hfind
      fin_cases hk <;> rfl

/-- Sample-based scalar detection never returns a LIST-topped type. -/
theorem inferTypeFromSamples_isList (s : List String) (o : XMLSchemaOptions) :
    (inferTypeFromSamples s o).isList = false := by
  unfold inferTypeFromSamples
  split
  · rfl
  · exact getMostSpecificType_isList _

/-- Fuel-0 unfolding of the inference recursion. -/
theorem inferColumnTypeN_zero (o : XMLSchemaOptions) (ca : ColumnAnalysis) :
    inferColumnTypeN o 0 ca =
      inferColumnTypeBody o ca true (fun _ => .varchar) := rfl

/-- Successor unfolding of the inference recursion. -/
theorem inferColumnTypeN_succ (o : XMLSchemaOptions) (n : Nat)
    (ca : ColumnAnalysis) :
    inferColumnTypeN o (n + 1) ca =
      inferColumnTypeBody o ca false (inferColumnTypeN o n) := rfl

/-- Fold congruence for pointwise-equal step functions. -/
theorem foldl_funext {α β : Type} {f g : α → β → α} (h : ∀ a b, f a b = g a b) :
    ∀ (l : List β) (a : α), l.foldl f a = l.foldl g a
  | [], _ => rfl
  | b :: l, a => by
    rw [List.foldl_cons, List.foldl_cons, h, foldl_funext h l]

/-- The child-field gathering loop only depends on the pointwise behaviour
of its inference argument. -/
theorem buildChildFields_congr (o : XMLSchemaOptions) (first : XMLNode)
    {f g : ColumnAnalysis → LType} (h : ∀ ca, f ca = g ca) :
    buildChildFields o first f = buildChildFields o first g := by
  unfold buildChildFields
  refine congrArg Prod.snd
    (foldl_funext ?_ first.elementChildren ([], FieldList.nil))
  intro st c
  simp only [h]

/-- `isList` on a LIST constructor. -/
theorem isList_list (t : LType) : (LType.list t).isList = true := rfl

/-- `isList` on a STRUCT constructor. -/
theorem isList_strct (fs : FieldList) : (LType.strct fs).isList = false := rfl

/-- `isList` on the XML type. -/
theorem isList_xml : (LType.xml).isList = false := rfl

/-- Indexing a zip from indexing the two lists. -/
theorem zip_getElem?_eq_some {α β : Type} :
    ∀ (l1 : List α) (l2 : List β) (i : Nat) (a : α) (b : β),
      l1[i]? = some a → l2[i]? = some b → (l1.zip l2)[i]? = some (a, b)
  | x :: xs, y :: ys, 0, a, b, h1, h2 => by
    simp only [List.getElem?_cons_zero, Option.some.injEq] at h1 h2
    simp [List.zip_cons_cons, h1, h2]
  | x :: xs, y :: ys, i + 1, a, b, h1, h2 => by
    simp only [List.getElem?_cons_succ] at h1 h2
    simpa [List.zip_cons_cons] using zip_getElem?_eq_some xs ys i a b h1 h2
  | [], _, i, a, b, h1, _ => by simp at h1
  | _ :: _, [], i, a, b, _, h2 => by simp at h2

/-! ## Claim C1 -/

/-- C1: for every sample list, under default options (all detection toggles
on), `InferTypeFromSamples` classifies each non-empty sample by first match
in the priority order Boolean → Integer → Double → Date → Timestamp → Time →
String and returns the kind whose count is ≥ 0.8 of the non-empty samples if
one exists, String otherwise; an empty sample list yields String — i.e. it
coincides with the spec-worded detector `specDetect`. -/
theorem c1_scalar_detector_matches_spec (samples : List String) :
    inferTypeFromSamples samples defaultOptions = specDetect samples := by
  have hclass : ∀ s, classifySample defaultOptions s = specSampleKind s := by
    intro s
    simp [classifySample, specSampleKind, defaultOptions]
  have hm : (samples.filter (fun s => s ≠ "")).map
        (classifySample defaultOptions)
      = (samples.filter (fun s => s ≠ "")).map specSampleKind :=
    List.map_congr_left (fun s _ => hclass s)
  unfold inferTypeFromSamples specDetect getMostSpecificType
  rw [hm]
  by_cases h0 : samples = []
  · simp [h0]
  · simp only [if_neg h0]
    by_cases h1 : samples.filter (fun s => s ≠ "") = []
    · simp [h1]
    · have h2 : (samples.filter (fun s => s ≠ "")).map specSampleKind ≠ [] := by
        simpa using h1
      simp only [if_neg h1, if_neg h2, List.length_map]

/-! ## Claim C2 -/

/-- C2 counterexample: a non-attribute complex column that repeats in its
record but is not force-listed gets the bare `XML` type at exhausted depth —
not `LIST(XML)` as the claim predicts for repeating columns. -/
theorem c2_depth_exhausted_counterexample :
    colComplexRepeats.is_attribute = false ∧
    colComplexRepeats.repeats_in_record = true ∧
    allLeafInstances defaultOptions colComplexRepeats.instances = false ∧
    inferColumnType colComplexRepeats 0 defaultOptions = .xml ∧
    inferSchema docNestedTriple { defaultOptions with max_depth := 2 } =
      [⟨"a", .xml, false, 3⟩] ∧
    (LType.xml ≠ LType.list .xml) := by
  refine ⟨rfl, rfl, by decide, by decide, by decide, by decide⟩

/-- C2 amended: at exhausted depth (`remainingDepth ≤ 0`) a non-attribute
complex column resolves to `XML`, wrapped in `LIST` exactly when the column
is force-listed — `repeats_in_record` plays no role here. -/
theorem c2_depth_exhausted_amended (ca : ColumnAnalysis)
    (o : XMLSchemaOptions) (d : Int)
    (hattr : ca.is_attribute = false)
    (hleaf : allLeafInstances o ca.instances = false)
    (hd : d ≤ 0) :
    inferColumnType ca d o =
      (if (parseForceListElements o.force_list).contains ca.name
        then LType.list .xml else .xml) := by
  have h0 : d.toNat = 0 := Int.toNat_of_nonpos hd
  rw [inferColumnType, h0, inferColumnTypeN_zero, inferColumnTypeBody]
  simp [hattr, hleaf]

/-- Witness for `c2_depth_exhausted_amended` at the concrete repeating
complex column, depth 0, default options. -/
theorem c2_depth_exhausted_amended_witness :
    colComplexRepeats.is_attribute = false ∧
    allLeafInstances defaultOptions colComplexRepeats.instances = false ∧
    (0 : Int) ≤ 0 ∧
    inferColumnType colComplexRepeats 0 defaultOptions =
      (if (parseForceListElements defaultOptions.force_list).contains
          colComplexRepeats.name
        then LType.list .xml else .xml) :=
  ⟨rfl, by decide, by decide,
    c2_depth_exhausted_amended colComplexRepeats defaultOptions 0 rfl
      (by decide) (by decide)⟩

/-! ## Claim C3 -/

/-- C3 counterexample: the record of `docTagTriple` has three same-named
direct element children `tag`, yet schema inference types the column as bare
VARCHAR (the instances are all leaves), not as a LIST. -/
theorem c3_list_detection_counterexample :
    (docTagTriple.elementChildren.headD (XMLNode.text "")).elementChildren.map
        XMLNode.tag = ["tag", "tag", "tag"] ∧
    inferSchema docTagTriple defaultOptions =
      [⟨"tag", .varchar, false, 3⟩] ∧
    LType.varchar.isList = false := by
  refine ⟨by decide, by decide, rfl⟩

/-- C3 amended: with depth budget left, a non-attribute column resolves to a
LIST-topped type exactly when it is force-listed or it is complex (not all
instances leaves) and repeats in a record; in particular a repeated all-leaf
column keeps the bare scalar type, and a non-repeating, non-forced column is
never LIST-topped. -/
theorem c3_list_detection_amended (ca : ColumnAnalysis)
    (o : XMLSchemaOptions) (d : Int)
    (hattr : ca.is_attribute = false) (hd : 0 < d) :
    (inferColumnType ca d o).isList =
      ((parseForceListElements o.force_list).contains ca.name
        || (!(allLeafInstances o ca.instances) && ca.repeats_in_record)) := by
  obtain ⟨n, hn⟩ : ∃ n, d.toNat = n + 1 := ⟨d.toNat - 1, by omega⟩
  rw [inferColumnType, hn, inferColumnTypeN_succ, inferColumnTypeBody]
  simp only [hattr]
  by_cases hleaf : allLeafInstances o ca.instances <;>
    by_cases hf : ca.name ∈ parseForceListElements o.force_list <;>
      by_cases hr : ca.repeats_in_record <;>
        simp [hleaf, hf, hr, inferTypeFromSamples_isList, isList_list,
          isList_strct, isList_xml, apply_ite LType.isList]

/-- Witness for `c3_list_detection_amended` at the repeating complex column
(depth 3, default options): the result is LIST-topped. -/
theorem c3_list_detection_amended_witness :
    colComplexRepeats.is_attribute = false ∧ (0 : Int) < 3 ∧
    (inferColumnType colComplexRepeats 3 defaultOptions).isList =
      ((parseForceListElements defaultOptions.force_list).contains
          colComplexRepeats.name
        || (!(allLeafInstances defaultOptions colComplexRepeats.instances) &&
            colComplexRepeats.repeats_in_record)) :=
  ⟨rfl, by decide,
    c3_list_detection_amended colComplexRepeats defaultOptions 3 rfl
      (by decide)⟩

/-! ## Claim C4 -/

/-- C4 counterexample: the claim's `clamp(maxDepth, 0, 20)` sends `-1` to 0
(so `remaining = -2 < 0` would force the single OpaqueDocument column), but
the code maps every negative depth to the ceiling 20 and performs full
analysis: on `docTwoLeafCols` it produces two columns. -/
theorem c4_depth_clamp_counterexample :
    max (0 : Int) (min 20 (-1)) = 0 ∧
    effectiveDepth (-1) = 20 ∧
    (inferSchema docTwoLeafCols optsNegDepth).length = 2 := by
  refine ⟨by decide, by decide, by decide⟩

/-- C4 amended: `InferSchema` computes
`remaining = effectiveDepth(maxDepth) - 2` where depths above 20 or below 0
become 20; whenever `remaining < 0` and the record locator found at least
one record, the result is exactly one column, named after the first record's
tag (namespace-adjusted), typed OpaqueDocument (`XML`), with no column or
type analysis attempted. -/
theorem c4_depth_limit_amended (root : XMLNode) (o : XMLSchemaOptions)
    (hrem : effectiveDepth o.max_depth - 2 < 0)
    (hne : identifyRecordElements root o ≠ []) :
    inferSchema root o =
      [⟨adjustName o
          ((identifyRecordElements root o).headD (XMLNode.text "")).tag,
        .xml, false, 1⟩] := by
  rw [inferSchema]
  simp [hne, hrem]

/-- Witness for `c4_depth_limit_amended`: `max_depth = 1` gives
`remaining = -1`; on `docTwoLeafCols` the records are the `item` children, so
the schema is the single `XML` column named `item`. -/
theorem c4_depth_limit_amended_witness :
    effectiveDepth optsDepthOne.max_depth - 2 < 0 ∧
    identifyRecordElements docTwoLeafCols optsDepthOne ≠ [] ∧
    inferSchema docTwoLeafCols optsDepthOne =
      [⟨adjustName optsDepthOne
          ((identifyRecordElements docTwoLeafCols optsDepthOne).headD
            (XMLNode.text "")).tag,
        .xml, false, 1⟩] :=
  ⟨by decide, by decide,
    c4_depth_limit_amended docTwoLeafCols optsDepthOne (by decide) (by decide)⟩

/-! ## Claim C5 -/

/-- C5 counterexample: a single-instance complex column whose only instance
is `<a id="1"/>` (attributes, no element children).  The claim's
"same first-instance inspection as the repeating case" would gather the `id`
attribute into `Struct{id: String}`; the code's single-complex branch gathers
no attributes, finds no child fields, and falls back to `XML`. -/
theorem c5_single_complex_counterexample :
    colSingleAttrOnly.is_attribute = false ∧
    colSingleAttrOnly.repeats_in_record = false ∧
    allLeafInstances defaultOptions colSingleAttrOnly.instances = false ∧
    inferColumnType colSingleAttrOnly 5 defaultOptions = .xml ∧
    LType.xml ≠ .strct (.cons "id" .varchar .nil) := by
  refine ⟨rfl, rfl, by decide, by decide, by decide⟩

/-- C5 amended: for a non-attribute complex column with depth budget left
that neither repeats nor is force-listed, the inferencer gathers only the
first instance's direct element children (deduplicated by tag, first-seen
order, recursive inference at `remainingDepth - 1`) — the attribute
gathering of the repeating branch is skipped — and returns the bare Struct
when any child field was found, else OpaqueDocument. -/
theorem c5_single_complex_amended (ca : ColumnAnalysis)
    (o : XMLSchemaOptions) (d : Int)
    (hattr : ca.is_attribute = false)
    (hleaf : allLeafInstances o ca.instances = false)
    (hd : 0 < d)
    (hrep : ca.repeats_in_record = false)
    (hforce : (parseForceListElements o.force_list).contains ca.name
      = false) :
    inferColumnType ca d o = singleComplexSpec ca d o := by
  obtain ⟨n, hn⟩ : ∃ n, d.toNat = n + 1 := ⟨d.toNat - 1, by omega⟩
  have hn1 : (d - 1).toNat = n := by omega
  rw [inferColumnType, hn, inferColumnTypeN_succ, inferColumnTypeBody,
    singleComplexSpec]
  have hforce2 : ¬(ca.name ∈ parseForceListElements o.force_list) := by
    simpa using hforce
  have hcongr : ∀ first, buildChildFields o first (inferColumnTypeN o n) =
      buildChildFields o first (fun ca2 => inferColumnType ca2 (d - 1) o) :=
    fun first =>
      buildChildFields_congr _ _ (fun ca2 => by rw [inferColumnType, hn1])
  simp [hattr, hleaf, hrep, hforce2, hcongr]

/-- Witness for `c5_single_complex_amended` at the concrete single complex
column `<a><b>x</b><b>y</b><c>true</c></a>`, depth 3, default options. -/
theorem c5_single_complex_amended_witness :
    colSingleComplex.is_attribute = false ∧
    allLeafInstances defaultOptions colSingleComplex.instances = false ∧
    (0 : Int) < 3 ∧
    colSingleComplex.repeats_in_record = false ∧
    (parseForceListElements defaultOptions.force_list).contains
        colSingleComplex.name = false ∧
    inferColumnType colSingleComplex 3 defaultOptions =
      singleComplexSpec colSingleComplex 3 defaultOptions :=
  ⟨rfl, by decide, by decide, rfl, by decide,
    c5_single_complex_amended colSingleComplex defaultOptions 3 rfl
      (by decide) (by decide) rfl (by decide)⟩

/-! ## Claim C6 -/

/-- C6 counterexample: on `<root/>` the record locator returns no records
and the fallback column is `("content", VARCHAR)` — plain VARCHAR, not the
aliased OpaqueDocument (`XML`) type the claim names. -/
theorem c6_fallback_counterexample :
    identifyRecordElements (XMLNode.elem "root" [] .nil) defaultOptions
      = [] ∧
    inferSchema (XMLNode.elem "root" [] .nil) defaultOptions =
      [⟨"content", .varchar, false, 1⟩] ∧
    LType.varchar ≠ .xml := by
  refine ⟨by decide, by decide, by decide⟩

/-- C6 amended: when the record locator returns no records, or when (with
depth budget for column analysis) the column identifier finds zero columns,
`InferSchema` emits exactly one fallback column named "content" typed
String (VARCHAR), not OpaqueDocument. -/
theorem c6_fallback_amended (root : XMLNode) (o : XMLSchemaOptions) :
    (identifyRecordElements root o = [] →
      inferSchema root o = [⟨"content", .varchar, false, 1⟩]) ∧
    (0 ≤ effectiveDepth o.max_depth - 2 →
      identifyColumns (identifyRecordElements root o) o = [] →
      inferSchema root o = [⟨"content", .varchar, false, 1⟩]) := by
  constructor
  · intro h
    rw [inferSchema]
    simp [h]
  · intro hrem hcols
    rw [inferSchema]
    by_cases h : identifyRecordElements root o = []
    · simp [h]
    · have hlt : ¬(effectiveDepth o.max_depth - 2 < 0) := by omega
      simp [h, hlt, hcols]

/-- Witness for `c6_fallback_amended` (zero-columns path) at
`<root><item/><item/></root>` with default options. -/
theorem c6_fallback_amended_witness :
    (0 : Int) ≤ effectiveDepth defaultOptions.max_depth - 2 ∧
    identifyColumns (identifyRecordElements docEmptyItems defaultOptions)
      defaultOptions = [] ∧
    inferSchema docEmptyItems defaultOptions =
      [⟨"content", .varchar, false, 1⟩] :=
  ⟨by decide, by decide,
    (c6_fallback_amended docEmptyItems defaultOptions).2 (by decide)
      (by decide)⟩

/-! ## Claim C7 -/

/-- C7: for a well-formed explicit schema (equal-length names and types),
every row of `ExtractDataWithSchema` has exactly one cell per schema column,
and a record with neither a matching attribute nor a matching child element
for a declared column gets the typed NULL `Value(column_type)` in that cell
— never an error, never a short row. -/
theorem c7_row_shape_and_nulls (root : XMLNode) (names : List String)
    (types : List LType) (o : XMLSchemaOptions)
    (hlen : names.length = types.length) :
    (∀ row ∈ extractDataWithSchema root names types o,
      row.length = names.length) ∧
    (∀ rec ∈ root.elementChildren, ∀ (i : Nat) (nm : String) (t : LType),
      names[i]? = some nm → types[i]? = some t →
      attrLookup rec nm = none →
      rec.elementChildren.find? (fun c => c.tag = nm) = none →
      (extractRow (names.zip types) rec)[i]? = some (XValue.nullv t)) := by
  constructor
  · intro row hrow
    by_cases hn : names = []
    · simp [extractDataWithSchema, hn] at hrow
    · simp only [extractDataWithSchema, hlen, ne_eq, not_true_eq_false,
        if_false, hn, if_neg hn, List.mem_map] at hrow
      obtain ⟨rec, _, rfl⟩ := hrow
      simp [extractRow, List.length_zip, hlen]
  · intro rec _ i nm t h1 h2 hattr hchild
    rw [extractRow, List.getElem?_map,
      zip_getElem?_eq_some names types i nm t h1 h2]
    simp [extractCell, hattr, hchild]

/-- Witness for `c7_row_shape_and_nulls`: schema `[a: INTEGER, b: VARCHAR]`
against the record `<item><a>5</a></item>`, which has no `b` — the second
cell is the typed NULL of VARCHAR. -/
theorem c7_row_shape_and_nulls_witness :
    (["a", "b"] : List String).length =
      ([.integer, .varchar] : List LType).length ∧
    (extractRow (["a", "b"].zip [LType.integer, .varchar]) itemRec)[1]? =
      some (XValue.nullv .varchar) :=
  ⟨rfl,
    (c7_row_shape_and_nulls docOneItem ["a", "b"] [.integer, .varchar]
        defaultOptions rfl).2
      itemRec (by decide) 1 "b" .varchar rfl rfl (by decide) (by decide)⟩

/-! ## Claim C8 -/

/-- C8 counterexample: converting the text "maybe" to a Boolean target
yields the NULL `Value()`, not the raw text retained as a String value as
the claim states. -/
theorem c8_conversion_counterexample :
    convertToValue "maybe" .boolean = nullValue ∧
    nullValue ≠ XValue.strv "maybe" := by
  refine ⟨by decide, by decide⟩

/-- C8 amended: value conversion never throws; empty text converts to the
NULL `Value()`; for a Boolean target, unrecognized text also converts to
NULL; for every other scalar target whose (prefix-based) parse fails, the
raw text is retained as a String value. -/
theorem c8_conversion_amended (text : String) (t : LType) :
    (text = "" → convertToValue text t = nullValue) ∧
    (text ≠ "" → scalarParseFails t text = true →
      convertToValue text t =
        if t = .boolean then nullValue else .strv text) := by
  constructor
  · intro h
    simp [convertToValue, h]
  · intro hne hfail
    cases t with
    | boolean =>
      simp only [scalarParseFails, Bool.not_eq_true', Bool.or_eq_false_iff]
        at hfail
      have h1 : ¬(lowerStr text ∈ ["true", "yes", "1", "on"]) := by
        simpa using hfail.1
      have h2 : ¬(lowerStr text ∈ ["false", "no", "0", "off"]) := by
        simpa using hfail.2
      simp at h1 h2
      simp [convertToValue, hne, h1, h2]
    | integer =>
      simp only [scalarParseFails, Option.isNone_iff_eq_none] at hfail
      have hfail2 : stoiParse text.data = none := hfail
      simp [convertToValue, hne, hfail2]
    | bigint =>
      simp only [scalarParseFails, Option.isNone_iff_eq_none] at hfail
      have hfail2 : stollParse text.data = none := hfail
      simp [convertToValue, hne, hfail2]
    | double =>
      simp only [scalarParseFails, Option.isNone_iff_eq_none] at hfail
      have hfail2 : stodParse text.data = none := hfail
      simp [convertToValue, hne, hfail2]
    | date =>
      simp only [scalarParseFails, Option.isNone_iff_eq_none] at hfail
      simp [convertToValue, hne, hfail]
    | timestamp =>
      simp only [scalarParseFails, Option.isNone_iff_eq_none] at hfail
      simp [convertToValue, hne, hfail]
    | sqlnull => simp [scalarParseFails] at hfail
    | varchar => simp [scalarParseFails] at hfail
    | time => simp [scalarParseFails] at hfail
    | xml => simp [scalarParseFails] at hfail
    | list elem => simp [scalarParseFails] at hfail
    | strct fields => simp [scalarParseFails] at hfail

/-- Witness for `c8_conversion_amended`: "abc" fails the INTEGER prefix
parse and is retained as the raw text. -/
theorem c8_conversion_amended_witness :
    ("abc" : String) ≠ "" ∧ scalarParseFails .integer "abc" = true ∧
    convertToValue "abc" .integer =
      (if LType.integer = .boolean then nullValue else .strv "abc") :=
  ⟨by decide, by decide,
    (c8_conversion_amended "abc" .integer).2 (by decide) (by decide)⟩

/-! ## Claim C9 -/

/-- C9: schema inference is deterministic — identical document content and
identical options give identical column lists (same names, same order, same
types).  In the embedding `InferSchema` is a pure function of its inputs;
the C++ likewise consults no state outside its arguments (the unordered-map
iteration order is a fixed function of the inserted keys within one
process). -/
theorem c9_infer_schema_deterministic (root root2 : XMLNode)
    (o o2 : XMLSchemaOptions) (hroot : root = root2) (ho : o = o2) :
    inferSchema root o = inferSchema root2 o2 := by
  subst hroot
  subst ho
  rfl

/-- Witness for `c9_infer_schema_deterministic` at a concrete document. -/
theorem c9_infer_schema_deterministic_witness :
    inferSchema docOneItem defaultOptions =
      inferSchema docOneItem defaultOptions :=
  c9_infer_schema_deterministic docOneItem docOneItem defaultOptions
    defaultOptions rfl rfl

/-! ## Claim C10 -/

/-- C10: `ExtractDataWithSchema` never consults the options (in particular
not `record_element`, `root_element` or `max_depth`), and — for a
well-formed non-empty schema — produces exactly one row per direct element
child of the document root, in document order. -/
theorem c10_extract_records_root_children (root : XMLNode)
    (names : List String) (types : List LType) (o o2 : XMLSchemaOptions) :
    extractDataWithSchema root names types o =
      extractDataWithSchema root names types o2 ∧
    (names.length = types.length → names ≠ [] →
      extractDataWithSchema root names types o =
        root.elementChildren.map (extractRow (names.zip types))) := by
  constructor
  · rfl
  · intro hlen hne
    unfold extractDataWithSchema
    simp [hlen, hne]

/-- Witness for `c10_extract_records_root_children`: locator options (a
`record_element`, a `root_element` and `max_depth = 0`) do not change the
result, and the rows are the root's element children. -/
theorem c10_extract_records_root_children_witness :
    extractDataWithSchema docOneItem ["a"] [.integer] optsLocatorNoise =
      extractDataWithSchema docOneItem ["a"] [.integer] defaultOptions ∧
    extractDataWithSchema docOneItem ["a"] [.integer] optsLocatorNoise =
      docOneItem.elementChildren.map (extractRow (["a"].zip [LType.integer])) :=
  ⟨(c10_extract_records_root_children docOneItem ["a"] [.integer]
      optsLocatorNoise defaultOptions).1,
    (c10_extract_records_root_children docOneItem ["a"] [.integer]
      optsLocatorNoise defaultOptions).2 rfl (by decide)⟩
